import Mathlib

/-!
Shallow embedding of the pyjutsu client library (a typed wrapper around the
jj version-control CLI) for checking its specification.

The embedding models the pure text-processing core of the library:
Python string primitives (`strip`, `split`, `splitlines`, `replace`, `upper`,
substring test) are re-implemented faithfully over `List Char`; the
subprocess layer is modelled by passing each command's outcome explicitly as
an `Except` value.  Machine-level concerns (actual process spawning, local
timezones, full Unicode case tables) are outside the model and are noted at
the definitions they would affect.
-/

namespace Pyjutsu

/-- Python `str.isspace` for the characters Python's `str.strip()` removes,
restricted to the ASCII/Latin-1 range (the Unicode space separators beyond
U+00A0 are not modelled; none can appear in jj's ASCII output). -/
def pyIsSpace (c : Char) : Bool :=
  c = ' ' ∨ c = '\t' ∨ c = '\n' ∨ c = '\r' ∨ c = '\x0b' ∨ c = '\x0c' ∨
  c = '\x1c' ∨ c = '\x1d' ∨ c = '\x1e' ∨ c = '\x1f' ∨ c = '\x85' ∨ c = '\xa0'

/-- Python `str.strip()` with no argument: remove leading and trailing
whitespace. -/
def pyStrip (s : String) : String :=
  String.mk (((s.toList.dropWhile pyIsSpace).reverse.dropWhile pyIsSpace).reverse)

/-- Python `str.upper()` (ASCII case mapping; no non-ASCII character
uppercases to an ASCII letter, so the Unicode case table is irrelevant to
the single-letter comparisons it feeds). -/
def pyUpper (s : String) : String :=
  String.mk (s.toList.map Char.toUpper)

/-- The line-boundary characters of Python `str.splitlines()`. -/
def pyIsLineBreak (c : Char) : Bool :=
  c = '\n' ∨ c = '\r' ∨ c = '\x0b' ∨ c = '\x0c' ∨ c = '\x1c' ∨ c = '\x1d' ∨
  c = '\x1e' ∨ c = '\x85' ∨ c = '\u2028' ∨ c = '\u2029'

/-- Worker for `pySplitlines`: `acc` holds the current line reversed. -/
def pySplitlinesAux : List Char → List Char → List String
  | [], acc => if acc.isEmpty then [] else [String.mk acc.reverse]
  | '\r' :: '\n' :: rest, acc => String.mk acc.reverse :: pySplitlinesAux rest []
  | c :: rest, acc =>
    if pyIsLineBreak c then String.mk acc.reverse :: pySplitlinesAux rest []
    else pySplitlinesAux rest (c :: acc)

/-- Python `str.splitlines()`: split at line boundaries (`\r\n` counting as
one boundary), with no trailing empty line. -/
def pySplitlines (s : String) : List String :=
  pySplitlinesAux s.toList []

/-- Worker for `pySplitNl`. -/
def pySplitNlAux : List Char → List Char → List String
  | [], acc => [String.mk acc.reverse]
  | c :: rest, acc =>
    if c = '\n' then String.mk acc.reverse :: pySplitNlAux rest []
    else pySplitNlAux rest (c :: acc)

/-- Python `str.split("\n")`: split at every newline, keeping empty pieces
(so the result is never empty). -/
def pySplitNl (s : String) : List String :=
  pySplitNlAux s.toList []

/-- Worker for `pySplitWsMax1`: Python `str.split(maxsplit=1)` with the
default whitespace separator. -/
def pySplitWsMax1 (s : String) : List String :=
  let l := s.toList.dropWhile pyIsSpace
  if l.isEmpty then []
  else
    let tok := l.takeWhile (fun c => !(pyIsSpace c))
    let rest := (l.dropWhile (fun c => !(pyIsSpace c))).dropWhile pyIsSpace
    if rest.isEmpty then [String.mk tok] else [String.mk tok, String.mk rest]

/-- Worker for `pySplitSepMax1`: scan for the first occurrence of `sep`. -/
def pySplitSepMax1Aux (sep : List Char) : List Char → List Char → List String
  | [], acc => [String.mk acc.reverse]
  | c :: rest, acc =>
    if sep.isPrefixOf (c :: rest) then
      [String.mk acc.reverse, String.mk ((c :: rest).drop sep.length)]
    else pySplitSepMax1Aux sep rest (c :: acc)

/-- Python `str.split(sep, maxsplit=1)` for a non-empty separator string:
`[s]` when `sep` does not occur, else the parts before and after its first
occurrence. -/
def pySplitSepMax1 (sep s : String) : List String :=
  pySplitSepMax1Aux sep.toList s.toList []

/-- Worker for `strContains`. -/
def strContainsAux (pat : List Char) : List Char → Bool
  | [] => pat.isEmpty
  | c :: rest => pat.isPrefixOf (c :: rest) || strContainsAux pat rest

/-- Python `sub in s` (substring containment). -/
def strContains (pat s : String) : Bool :=
  strContainsAux pat.toList s.toList

/-- Python `str.replace(target, repl)` for a one-character target (the only
form the library uses): every occurrence of `target` is rewritten to
`repl`. -/
def pyReplaceChar (s : String) (target : Char) (repl : String) : String :=
  String.mk (s.toList.foldr
    (fun c acc => if c = target then repl.toList ++ acc else c :: acc) [])

/-- A Python `datetime.datetime` value: calendar fields plus an optional
fixed UTC offset in minutes (`none` for a naive datetime). -/
structure PyDateTime where
  year : Nat
  month : Nat
  day : Nat
  hour : Nat
  minute : Nat
  second : Nat
  microsecond : Nat
  utcOffsetMinutes : Option Int
deriving DecidableEq, Repr

/-- Model of `datetime.fromtimestamp(0)`: the Unix epoch.  CPython renders it in the
machine's local timezone as a naive datetime; the model abstracts the
environment-dependent timezone away and uses the epoch instant itself. -/
def unixEpoch : PyDateTime :=
  PyDateTime.mk 1970 1 1 0 0 0 0 none

/-- Gregorian leap-year test (as validated by `datetime`). -/
def isLeapYear (y : Nat) : Bool :=
  (y % 4 = 0 ∧ y % 100 ≠ 0) ∨ y % 400 = 0

/-- Days in a month, as `datetime` validates day-of-month. -/
def daysInMonth (y m : Nat) : Nat :=
  if m = 2 then (if isLeapYear y then 29 else 28)
  else if m = 4 ∨ m = 6 ∨ m = 9 ∨ m = 11 then 30
  else 31

/-- Read exactly `n` decimal digits off the front of `l`, returning their
value and the remainder. -/
def readNDigits : Nat → List Char → Nat → Option (Nat × List Char)
  | 0, l, acc => some (acc, l)
  | Nat.succ m, c :: rest, acc =>
    if c.isDigit then readNDigits m rest (acc * 10 + (c.toNat - 48)) else none
  | Nat.succ _, [], _ => none

/-- Expect the character `c` at the head of `l`. -/
def expectChar (c : Char) : List Char → Option (List Char)
  | x :: rest => if x = c then some rest else none
  | [] => none

/-- Microseconds from the digit string of a fractional-second part: the
first six digits, right-padded with zeros (CPython ignores further
digits). -/
def microOfDigits (ds : List Char) : Nat :=
  ((ds.take 6) ++ List.replicate (6 - ds.length) '0').foldl
    (fun acc c => acc * 10 + (c.toNat - 48)) 0

/-- Parse an optional fractional-second part (`.` or `,` then at least one
digit). -/
def parseFraction : List Char → Option (Nat × List Char)
  | c :: rest =>
    if c = '.' ∨ c = ',' then
      let ds := rest.takeWhile Char.isDigit
      if ds.isEmpty then none
      else some (microOfDigits ds, rest.drop ds.length)
    else some (0, c :: rest)
  | [] => some (0, [])

/-- Parse an optional trailing UTC offset `±HH:MM` (the form jj and the
library's `"Z" → "+00:00"` normalization produce) and require the end of the
string. -/
def parseOffsetEnd : List Char → Option (Option Int)
  | [] => some none
  | c :: rest =>
    if c = '+' ∨ c = '-' then
      match readNDigits 2 rest 0 with
      | none => none
      | some (oh, r1) =>
        match expectChar ':' r1 with
        | none => none
        | some r2 =>
          match readNDigits 2 r2 0 with
          | none => none
          | some (om, r3) =>
            if r3.isEmpty ∧ oh ≤ 23 ∧ om ≤ 59 then
              some (some (if c = '-' then -((oh : Int) * 60 + om) else (oh : Int) * 60 + om))
            else none
    else none

/-- Model of `datetime.fromisoformat`, on the textual forms relevant here:
a calendar date `YYYY-MM-DD`, optionally followed by a one-character
separator and a time `HH:MM:SS`, an optional fractional second, and an
optional `±HH:MM` offset.  Field ranges are validated as CPython does
(including month lengths and leap years); every other input is a parse
failure (`none`).  CPython's further ISO-8601 abbreviations (week dates,
compact forms, partial times) are outside the model — jj never emits them. -/
def fromisoformat (s : String) : Option PyDateTime :=
  match readNDigits 4 s.toList 0 with
  | none => none
  | some (y, l1) =>
    match expectChar '-' l1 with
    | none => none
    | some l2 =>
      match readNDigits 2 l2 0 with
      | none => none
      | some (mo, l3) =>
        match expectChar '-' l3 with
        | none => none
        | some l4 =>
          match readNDigits 2 l4 0 with
          | none => none
          | some (d, l5) =>
            if y < 1 ∨ mo < 1 ∨ 12 < mo ∨ d < 1 ∨ daysInMonth y mo < d then none
            else
              match l5 with
              | [] => some (PyDateTime.mk y mo d 0 0 0 0 none)
              | _sep :: l6 =>
                match readNDigits 2 l6 0 with
                | none => none
                | some (h, l7) =>
                  match expectChar ':' l7 with
                  | none => none
                  | some l8 =>
                    match readNDigits 2 l8 0 with
                    | none => none
                    | some (mi, l9) =>
                      match expectChar ':' l9 with
                      | none => none
                      | some l10 =>
                        match readNDigits 2 l10 0 with
                        | none => none
                        | some (se, l11) =>
                          if 23 < h ∨ 59 < mi ∨ 59 < se then none
                          else
                            match parseFraction l11 with
                            | none => none
                            | some (us, l12) =>
                              match parseOffsetEnd l12 with
                              | none => none
                              | some off => some (PyDateTime.mk y mo d h mi se us off)

/-- Model of `enums.FileStatus`: file status codes from jj. -/
inductive FileStatus where
  | added
  | modified
  | deleted
  | renamed
  | copied
  | unknown
deriving DecidableEq, Repr

/-- The `value` string of each `FileStatus` member. -/
def FileStatus.value : FileStatus → String
  | .added => "A"
  | .modified => "M"
  | .deleted => "D"
  | .renamed => "R"
  | .copied => "C"
  | .unknown => "?"

/-- The members of `FileStatus` in definition order (the order Python's
`for status in cls` iterates). -/
def FileStatus.members : List FileStatus :=
  [.added, .modified, .deleted, .renamed, .copied, .unknown]

/-- Model of `FileStatus.from_code`: strip and uppercase the code, return the first
member whose value matches, else `UNKNOWN`. -/
def FileStatus.from_code (code : String) : FileStatus :=
  let c := pyUpper (pyStrip code)
  match FileStatus.members.find? (fun st => st.value == c) with
  | some st => st
  | none => FileStatus.unknown

/-- Model of `models.FileChange`.  `pathlib.Path` values are modelled by the string
they were constructed from (the paths here are plain relative names, on
which `Path` is the identity). -/
structure FileChange where
  path : String
  status : FileStatus
  old_path : Option String
deriving DecidableEq, Repr

/-- Model of `models.Change`, restricted to the fields `JjClient.log` fills in
(`parent_ids` and `state` always keep their defaults there). -/
structure Change where
  change_id : String
  commit_id : String
  description : String
  author : String
  timestamp : PyDateTime
deriving DecidableEq, Repr

/-- Model of `models.LogEntry`, restricted to the field `JjClient.log` fills in
(`branches` and `is_working_copy` always keep their defaults there). -/
structure LogEntry where
  change : Change
deriving DecidableEq, Repr

/-- Model of `models.Branch`, restricted to the fields `JjClient.branch_list` fills
in (`tracking_status` and `remote_name` always keep their defaults
there). -/
structure Branch where
  name : String
  target_change_id : String
  target_commit_id : String
deriving DecidableEq, Repr

/-- The data carried by `exceptions.JjCommandError` (command line, exit
code, captured stdout and stderr).  `JjCommand.run` raises exactly this on
a failed invocation, so a command outcome is `Except CommandErrorData
String`. -/
structure CommandErrorData where
  command : String
  returncode : Int
  stdout : String
  stderr : String
deriving DecidableEq, Repr

/-- The exception taxonomy of `exceptions.py`, plus a constructor for any
exception raised outside it (Python's bare `except Exception` can catch
arbitrary errors). -/
inductive JjError where
  | jjCommandError (data : CommandErrorData)
  | jjNotFoundError
  | repositoryNotFoundError (path : String)
  | otherError (message : String)
deriving DecidableEq, Repr

/-- One iteration of the loop body of `JjClient._parse_status_output`: the
`FileChange` a raw line contributes, if any.  Blank lines, lines with fewer
than two whitespace-separated parts, and lines whose first token maps to
`FileStatus.UNKNOWN` contribute nothing; a recognized line is split into
old/new paths at the first `"=>"` when the remainder contains `"=>"`, else
the trimmed remainder is the single path. -/
def parse_status_line (raw : String) : Option FileChange :=
  match pySplitWsMax1 (pyStrip raw) with
  | [status_code, path_info] =>
    if FileStatus.from_code status_code = FileStatus.unknown then none
    else if strContains "=>" path_info then
      some (FileChange.mk (pyStrip ((pySplitSepMax1 "=>" path_info).getD 1 ""))
        (FileStatus.from_code status_code)
        (some (pyStrip ((pySplitSepMax1 "=>" path_info).getD 0 ""))))
    else some (FileChange.mk (pyStrip path_info)
      (FileStatus.from_code status_code) none)
  | _ => none

/-- One loop iteration of the appending loops in `client.py`: append the
contributed element, if any. -/
def append_step {β : Type} (acc : List β) (x : Option β) : List β :=
  match x with
  | some b => acc ++ [b]
  | none => acc

/-- Model of `JjClient._parse_status_output`: fold the loop over
`output.splitlines()`, appending each contributed `FileChange`. -/
def parse_status_output (output : String) : List FileChange :=
  (pySplitlines output).foldl
    (fun changes raw => append_step changes (parse_status_line raw)) []

/-- The list comprehension `[line.strip() for line in raw.splitlines() if
line.strip()]` used by `JjClient.status` and `JjClient.log`: trimmed
non-blank lines. -/
def strip_lines (raw : String) : List String :=
  (pySplitlines raw).filterMap
    (fun line => let t := pyStrip line; if t = "" then none else some t)

/-- The timestamp mapping in `JjClient.log`'s row loop: replace every `"Z"`
with `"+00:00"`, try `datetime.fromisoformat`, and fall back to
`datetime.fromtimestamp(0)` (the Unix epoch) on a `ValueError`. -/
def parse_log_timestamp (s : String) : PyDateTime :=
  match fromisoformat (pyReplaceChar s 'Z' "+00:00") with
  | some d => d
  | none => unixEpoch

/-- The row-building loop of `JjClient.log` (lines 395–413): the number of
rows is the minimum of the five per-field list lengths, and row `i` is built
from the `i`-th element of each list. -/
def log_zip (change_ids commit_ids descriptions authors times : List String) :
    List LogEntry :=
  let num_entries :=
    min (min (min (min change_ids.length commit_ids.length) descriptions.length)
      authors.length) times.length
  (List.range num_entries).map (fun i =>
    LogEntry.mk (Change.mk (change_ids.getD i "") (commit_ids.getD i "")
      (descriptions.getD i "") (authors.getD i "")
      (parse_log_timestamp (times.getD i ""))))

/-- Python list slicing `l[:stop]` for an integer `stop` (a negative stop
counts from the end). -/
def pySliceTo (l : List LogEntry) (stop : Int) : List LogEntry :=
  if 0 ≤ stop then l.take stop.toNat
  else l.take (l.length - min l.length (-stop).toNat)

/-- The truncation step of `JjClient.log` (lines 415–417): `entries[:limit]`
when `limit >= 0`, all entries otherwise. -/
def log_truncate (entries : List LogEntry) (limit : Int) : List LogEntry :=
  if 0 ≤ limit then pySliceTo entries limit else entries

/-- Model of `JjClient.log` from the five raw per-field outputs and the limit:
split each output into trimmed non-blank lines, zip, truncate. -/
def log_of_raw (change_raw commit_raw description_raw author_raw time_raw :
    String) (limit : Int) : List LogEntry :=
  log_truncate
    (log_zip (strip_lines change_raw) (strip_lines commit_raw)
      (strip_lines description_raw) (strip_lines author_raw)
      (strip_lines time_raw)) limit

/-- Model of `JjClient._validate_repository`: the probe's outcome is passed in; any
failure at all is collapsed into `RepositoryNotFoundError(path)`. -/
def validate_repository (repo_path : String)
    (probe : Except JjError String) : Except JjError Unit :=
  match probe with
  | Except.ok _ => Except.ok ()
  | Except.error _ => Except.error (JjError.repositoryNotFoundError repo_path)

/-- The branch-name resolution in `JjClient.status` (lines 87–105): on a
`JjCommandError` from the bookmark listing the branch is `None`; otherwise
it is the first trimmed non-blank line of the output, or `None` when there
is none. -/
def current_branch_of (bookmark_run : Except CommandErrorData String) :
    Option String :=
  match bookmark_run with
  | Except.error _ => none
  | Except.ok out => (strip_lines out).head?

/-- The fixed all-zero placeholder `"0" * 40` used by
`JjClient.branch_list` when a commit id cannot be resolved. -/
def zero_commit_id : String :=
  String.mk (List.replicate 40 '0')

/-- One iteration of the loop body of `JjClient.branch_list`: the `Branch` a
raw line contributes, if any.  The resolvers stand for the two `jj log`
sub-commands run per branch name; each may fail with a `JjCommandError`. -/
def branch_list_line (resolve_change resolve_commit :
    String → Except CommandErrorData String) (raw : String) : Option Branch :=
  let line := pyStrip raw
  if line = "" then none
  else
    match pySplitSepMax1 ":" line with
    | [name_part, _rest] =>
      let name := pyStrip name_part
      let change_id :=
        match resolve_change name with
        | Except.ok s => pyStrip s
        | Except.error _ => ""
      let commit_id :=
        match resolve_commit name with
        | Except.ok s => pyStrip s
        | Except.error _ => zero_commit_id
      some (Branch.mk name change_id commit_id)
    | _ => none

/-- Model of `JjClient.branch_list` from the raw `bookmark list` output: fold the
loop over `output.strip().split("\n")`, appending each contributed
`Branch`. -/
def branch_list (output : String) (resolve_change resolve_commit :
    String → Except CommandErrorData String) : List Branch :=
  (pySplitNl (pyStrip output)).foldl
    (fun branches raw =>
      append_step branches (branch_list_line resolve_change resolve_commit raw)) []

/-- Model of `JjCommand.run_lines` as a function of the command's stdout: `run`
strips the whole output, then the lines of `output.split("\n")` that are
not whitespace-only are kept — verbatim, not trimmed. -/
def run_lines (stdout : String) : List String :=
  (pySplitNl (pyStrip stdout)).filter (fun line => pyStrip line ≠ "")

/-- The line policy §4.1 of the spec ascribes to `run_lines`, written from
the spec's words for comparison: non-empty lines, each trimmed. -/
def run_lines_spec (stdout : String) : List String :=
  (pySplitNl (pyStrip stdout)).filterMap
    (fun line => let t := pyStrip line; if t = "" then none else some t)

/-- A Python loop that appends at most one element per iteration is a
`filterMap`. -/
theorem append_step_none {β : Type} (acc : List β) :
    append_step acc none = acc := rfl

theorem append_step_some {β : Type} (acc : List β) (b : β) :
    append_step acc (some b) = acc ++ [b] := rfl

theorem foldl_append_filterMap {α β : Type} (f : α → Option β) (l : List α)
    (init : List β) :
    l.foldl (fun acc a => append_step acc (f a)) init =
      init ++ l.filterMap f := by
  induction l generalizing init with
  | nil => simp
  | cons a t ih =>
    cases h : f a with
    | none =>
      simp only [List.foldl_cons, h, append_step_none, List.filterMap_cons, ih]
    | some b =>
      simp only [List.foldl_cons, h, append_step_some, List.filterMap_cons, ih]
      simp

/-- Unfolding `List.find?` on a cons cell, as an `if`. -/
theorem find?_cons_eq_ite {α : Type} (p : α → Bool) (a : α) (l : List α) :
    (a :: l).find? p = if p a = true then some a else l.find? p := by
  by_cases h : p a = true
  · rw [List.find?_cons_of_pos _ h, if_pos h]
  · rw [List.find?_cons_of_neg _ (by simpa using h), if_neg h]

/-- Fact: `parse_status_output` processes lines independently. -/
theorem parse_status_output_eq (output : String) :
    parse_status_output output =
      (pySplitlines output).filterMap parse_status_line := by
  have h := foldl_append_filterMap parse_status_line (pySplitlines output) []
  rw [List.nil_append] at h
  exact h

/-- Fact: `branch_list` processes lines independently. -/
theorem branch_list_eq (output : String)
    (rc rk : String → Except CommandErrorData String) :
    branch_list output rc rk =
      (pySplitNl (pyStrip output)).filterMap (branch_list_line rc rk) := by
  have h := foldl_append_filterMap (branch_list_line rc rk)
    (pySplitNl (pyStrip output)) []
  rw [List.nil_append] at h
  exact h

/-- C6: `FileStatus.from_code` maps a code whose trimmed uppercase form is
one of A, M, D, R, C to the corresponding variant, and every other input
(the empty string included) to the `unknown` sentinel. -/
theorem from_code_spec (s : String) :
    FileStatus.from_code s =
      (if pyUpper (pyStrip s) = "A" then FileStatus.added
       else if pyUpper (pyStrip s) = "M" then FileStatus.modified
       else if pyUpper (pyStrip s) = "D" then FileStatus.deleted
       else if pyUpper (pyStrip s) = "R" then FileStatus.renamed
       else if pyUpper (pyStrip s) = "C" then FileStatus.copied
       else FileStatus.unknown) := by
  unfold FileStatus.from_code FileStatus.members
  simp only [find?_cons_eq_ite, List.find?_nil, FileStatus.value, beq_iff_eq]
  by_cases hA : pyUpper (pyStrip s) = "A"
  · simp [hA]
  · rw [if_neg (fun h => hA h.symm), if_neg hA]
    by_cases hM : pyUpper (pyStrip s) = "M"
    · simp [hM]
    · rw [if_neg (fun h => hM h.symm), if_neg hM]
      by_cases hD : pyUpper (pyStrip s) = "D"
      · simp [hD]
      · rw [if_neg (fun h => hD h.symm), if_neg hD]
        by_cases hR : pyUpper (pyStrip s) = "R"
        · simp [hR]
        · rw [if_neg (fun h => hR h.symm), if_neg hR]
          by_cases hC : pyUpper (pyStrip s) = "C"
          · simp [hC]
          · rw [if_neg (fun h => hC h.symm), if_neg hC]
            by_cases hQ : "?" = pyUpper (pyStrip s)
            · rw [if_pos hQ]
            · rw [if_neg hQ]

/-- The line-level behavior of `parse_status_line` on a line that splits
into a status token and a remainder. -/
theorem parse_status_line_eq (raw status_code path_info : String)
    (hsplit : pySplitWsMax1 (pyStrip raw) = [status_code, path_info]) :
    parse_status_line raw =
      (if FileStatus.from_code status_code = FileStatus.unknown then none
       else if strContains "=>" path_info then
         some (FileChange.mk
           (pyStrip ((pySplitSepMax1 "=>" path_info).getD 1 ""))
           (FileStatus.from_code status_code)
           (some (pyStrip ((pySplitSepMax1 "=>" path_info).getD 0 ""))))
       else some (FileChange.mk (pyStrip path_info)
           (FileStatus.from_code status_code) none)) := by
  unfold parse_status_line
  rw [hsplit]

/-- C1 fails on the code: on the status line `"M a => b"` the parser
produces a `FileChange` whose status is `modified` but whose `old_path` is
set, so "prior path is set iff status is renamed" is false. -/
theorem old_path_iff_renamed_cex :
    ¬ ∀ fc ∈ parse_status_output "M a => b",
        (fc.old_path.isSome ↔ fc.status = FileStatus.renamed) := by
  decide

/-- C1 as amended: for every parsed status line, `old_path` is set exactly
when the part of the line after the status token contains `"=>"` — not
exactly when the status is `renamed`. -/
theorem old_path_iff_arrow (raw status_code path_info : String)
    (fc : FileChange)
    (hsplit : pySplitWsMax1 (pyStrip raw) = [status_code, path_info])
    (hfc : parse_status_line raw = some fc) :
    fc.old_path.isSome = strContains "=>" path_info := by
  rw [parse_status_line_eq raw status_code path_info hsplit] at hfc
  by_cases hu : FileStatus.from_code status_code = FileStatus.unknown
  · rw [if_pos hu] at hfc
    exact absurd hfc (by simp)
  · rw [if_neg hu] at hfc
    by_cases ha : strContains "=>" path_info = true
    · rw [if_pos ha] at hfc
      rw [← Option.some_inj.mp hfc]
      simp [ha]
    · rw [if_neg ha] at hfc
      rw [← Option.some_inj.mp hfc]
      simp only [Bool.not_eq_true] at ha
      simp [ha]

/-- Witness for the amended C1 at the concrete line `"R a => b"`. -/
theorem old_path_iff_arrow_witness :
    pySplitWsMax1 (pyStrip "R a => b") = ["R", "a => b"] ∧
    parse_status_line "R a => b" =
      some (FileChange.mk "b" FileStatus.renamed (some "a")) ∧
    (FileChange.mk "b" FileStatus.renamed (some "a")).old_path.isSome =
      strContains "=>" "a => b" :=
  ⟨by decide, by decide,
    old_path_iff_arrow "R a => b" "R" "a => b"
      (FileChange.mk "b" FileStatus.renamed (some "a")) (by decide) (by decide)⟩

/-- C2 fails on the code: the rename split is triggered by the substring
`"=>"`, not by the spaced separator `" => "`.  The line `"M a=>b"` has no
`" => "`, so the claim predicts the single path `"a=>b"`, but the code
splits it. -/
theorem arrow_split_without_spaces_cex :
    parse_status_line "M a=>b" =
      some (FileChange.mk "b" FileStatus.modified (some "a")) ∧
    strContains " => " "a=>b" = false ∧
    parse_status_line "M a=>b" ≠
      some (FileChange.mk "a=>b" FileStatus.modified none) := by
  decide

/-- C2 as amended: on a line whose first token maps to a known status code,
the remainder is split into trimmed old/new paths at its first `"=>"`
whenever it contains `"=>"` (spaced or not), else the trimmed remainder is
the single path; a line whose token maps to no known code produces no
entry. -/
theorem parse_status_line_spec :
    (∀ raw status_code path_info : String,
        pySplitWsMax1 (pyStrip raw) = [status_code, path_info] →
        parse_status_line raw =
          (if FileStatus.from_code status_code = FileStatus.unknown then none
           else if strContains "=>" path_info then
             some (FileChange.mk
               (pyStrip ((pySplitSepMax1 "=>" path_info).getD 1 ""))
               (FileStatus.from_code status_code)
               (some (pyStrip ((pySplitSepMax1 "=>" path_info).getD 0 ""))))
           else some (FileChange.mk (pyStrip path_info)
               (FileStatus.from_code status_code) none))) ∧
    parse_status_output "R old.txt => new.txt" =
      [FileChange.mk "new.txt" FileStatus.renamed (some "old.txt")] ∧
    parse_status_output "M src/main.ext" =
      [FileChange.mk "src/main.ext" FileStatus.modified none] ∧
    parse_status_output "The working copy has no changes." = [] := by
  exact ⟨parse_status_line_eq, by decide, by decide, by decide⟩

/-- Witness for the amended C2 at the concrete line `"M a => b"`. -/
theorem parse_status_line_spec_witness :
    pySplitWsMax1 (pyStrip "M a => b") = ["M", "a => b"] ∧
    parse_status_line "M a => b" =
      (if FileStatus.from_code "M" = FileStatus.unknown then none
       else if strContains "=>" "a => b" then
         some (FileChange.mk (pyStrip ((pySplitSepMax1 "=>" "a => b").getD 1 ""))
           (FileStatus.from_code "M")
           (some (pyStrip ((pySplitSepMax1 "=>" "a => b").getD 0 ""))))
       else some (FileChange.mk (pyStrip "a => b") (FileStatus.from_code "M")
           none)) :=
  ⟨by decide, parse_status_line_spec.1 "M a => b" "M" "a => b" (by decide)⟩

/-- The default `LogEntry` used only as the out-of-range placeholder of
`List.getD` in statements about `log_zip`. -/
def empty_log_entry : LogEntry :=
  LogEntry.mk (Change.mk "" "" "" "" unixEpoch)

/-- C3: the row loop of `log()` produces exactly the minimum of the five
per-field list lengths (extra rows of longer lists are dropped, nothing is
raised), and row `i` is built from position `i` of each list. -/
theorem log_zip_spec (cs ks ds aus tms : List String) (i : Nat)
    (h : i < (log_zip cs ks ds aus tms).length) :
    (log_zip cs ks ds aus tms).length =
      min (min (min (min cs.length ks.length) ds.length) aus.length)
        tms.length ∧
    (log_zip cs ks ds aus tms).getD i empty_log_entry =
      LogEntry.mk (Change.mk (cs.getD i "") (ks.getD i "") (ds.getD i "")
        (aus.getD i "") (parse_log_timestamp (tms.getD i ""))) := by
  have hlen : (log_zip cs ks ds aus tms).length =
      min (min (min (min cs.length ks.length) ds.length) aus.length)
        tms.length := by
    simp [log_zip]
  refine ⟨hlen, ?_⟩
  have hi : i <
      min (min (min (min cs.length ks.length) ds.length) aus.length)
        tms.length := hlen ▸ h
  simp only [log_zip]
  rw [List.getD_eq_getElem?_getD, List.getElem?_map, List.getElem?_range hi]
  rfl

/-- Witness for C3 at the spec's 5,5,5,5,4 example. -/
theorem log_zip_spec_witness :
    (log_zip ["c1", "c2", "c3", "c4", "c5"] ["k1", "k2", "k3", "k4", "k5"]
        ["d1", "d2", "d3", "d4", "d5"] ["a1", "a2", "a3", "a4", "a5"]
        ["t1", "t2", "t3", "t4"]).length = 4 ∧
    (log_zip ["c1", "c2", "c3", "c4", "c5"] ["k1", "k2", "k3", "k4", "k5"]
        ["d1", "d2", "d3", "d4", "d5"] ["a1", "a2", "a3", "a4", "a5"]
        ["t1", "t2", "t3", "t4"]).getD 0 empty_log_entry =
      LogEntry.mk (Change.mk "c1" "k1" "d1" "a1" (parse_log_timestamp "t1")) := by
  have h := log_zip_spec ["c1", "c2", "c3", "c4", "c5"]
    ["k1", "k2", "k3", "k4", "k5"] ["d1", "d2", "d3", "d4", "d5"]
    ["a1", "a2", "a3", "a4", "a5"] ["t1", "t2", "t3", "t4"] 0 (by decide)
  exact ⟨by simpa using h.1, by simpa using h.2⟩

/-- C4: the truncation step of `log()` returns the first `limit` entries
when `limit` is non-negative and all entries when it is negative. -/
theorem log_truncate_spec (entries : List LogEntry) (limit : Int) :
    (0 ≤ limit → log_truncate entries limit = entries.take limit.toNat ∧
      (log_truncate entries limit).length = min limit.toNat entries.length) ∧
    (limit < 0 → log_truncate entries limit = entries) := by
  constructor
  · intro h
    unfold log_truncate pySliceTo
    rw [if_pos h, if_pos h]
    exact ⟨rfl, List.length_take _ _⟩
  · intro h
    unfold log_truncate
    rw [if_neg (not_le.mpr h)]

/-- Five sample entries for the witness of `log_truncate_spec`. -/
def sample_log_entries : List LogEntry :=
  [LogEntry.mk (Change.mk "c1" "k1" "d1" "a1" unixEpoch),
   LogEntry.mk (Change.mk "c2" "k2" "d2" "a2" unixEpoch),
   LogEntry.mk (Change.mk "c3" "k3" "d3" "a3" unixEpoch),
   LogEntry.mk (Change.mk "c4" "k4" "d4" "a4" unixEpoch),
   LogEntry.mk (Change.mk "c5" "k5" "d5" "a5" unixEpoch)]

/-- Witness for C4: limit 3 over five entries keeps the first three, limit
-1 keeps all five. -/
theorem log_truncate_spec_witness :
    log_truncate sample_log_entries 3 = sample_log_entries.take (3 : Int).toNat ∧
    (log_truncate sample_log_entries 3).length =
      min (3 : Int).toNat sample_log_entries.length ∧
    log_truncate sample_log_entries (-1) = sample_log_entries :=
  ⟨((log_truncate_spec sample_log_entries 3).1 (by decide)).1,
    ((log_truncate_spec sample_log_entries 3).1 (by decide)).2,
    (log_truncate_spec sample_log_entries (-1)).2 (by decide)⟩

/-- In the result of the `"Z" → "+00:00"` rewriting no `target` remains
when the replacement itself avoids it. -/
theorem foldr_replace_not_mem {target : Char} {repl : List Char}
    (hr : target ∉ repl) (l : List Char) :
    target ∉ l.foldr
      (fun c acc => if c = target then repl ++ acc else c :: acc) [] := by
  induction l with
  | nil => simp
  | cons c t ih =>
    simp only [List.foldr_cons]
    by_cases hc : c = target
    · rw [if_pos hc]
      intro hmem
      rcases List.mem_append.mp hmem with h1 | h1
      · exact hr h1
      · exact ih h1
    · rw [if_neg hc]
      intro hmem
      rcases List.mem_cons.mp hmem with h1 | h1
      · exact hc h1.symm
      · exact ih h1

/-- A single-character pattern is not contained in a character list that
misses it. -/
theorem strContainsAux_single_eq_false {c : Char} {l : List Char}
    (h : c ∉ l) : strContainsAux [c] l = false := by
  induction l with
  | nil => rfl
  | cons a t ih =>
    have hne : c ≠ a := fun hh => h (hh ▸ List.mem_cons_self a t)
    have ht : c ∉ t := fun hh => h (List.mem_cons_of_mem a hh)
    simp [strContainsAux, List.isPrefixOf, hne, ih ht]

/-- Every `"Z"` is gone after the replacement step of `log()`'s timestamp
handling. -/
theorem pyReplaceChar_no_target (s : String) :
    strContains "Z" (pyReplaceChar s 'Z' "+00:00") = false := by
  apply strContainsAux_single_eq_false
  exact foldr_replace_not_mem (by decide) s.toList

/-- C5: timestamp handling in `log()`: every occurrence of `"Z"` is
replaced by `"+00:00"` before ISO parsing, `"2024-01-01T00:00:00Z"` parses
to midnight UTC on Jan 1 2024, and a value the parser rejects yields the
Unix epoch instead of an error (a parsed value is passed through). -/
theorem log_timestamp_spec :
    (∀ s : String, strContains "Z" (pyReplaceChar s 'Z' "+00:00") = false) ∧
    parse_log_timestamp "2024-01-01T00:00:00Z" =
      PyDateTime.mk 2024 1 1 0 0 0 0 (some 0) ∧
    (∀ s : String, fromisoformat (pyReplaceChar s 'Z' "+00:00") = none →
        parse_log_timestamp s = unixEpoch) ∧
    (∀ (s : String) (d : PyDateTime),
        fromisoformat (pyReplaceChar s 'Z' "+00:00") = some d →
        parse_log_timestamp s = d) := by
  refine ⟨pyReplaceChar_no_target, by decide, ?_, ?_⟩
  · intro s h
    unfold parse_log_timestamp
    rw [h]
  · intro s d h
    unfold parse_log_timestamp
    rw [h]

/-- Witness for C5 at the malformed input `"not-a-timestamp"`. -/
theorem log_timestamp_spec_witness :
    fromisoformat (pyReplaceChar "not-a-timestamp" 'Z' "+00:00") = none ∧
    parse_log_timestamp "not-a-timestamp" = unixEpoch :=
  ⟨by decide, log_timestamp_spec.2.2.1 "not-a-timestamp" (by decide)⟩

/-- C7: whenever the validation probe fails — with any exception whatsoever —
construction fails with `RepositoryNotFoundError` carrying the path, and no
other error kind can come out of validation. -/
theorem validate_repository_spec :
    (∀ (path : String) (exc : JjError),
        validate_repository path (Except.error exc) =
          Except.error (JjError.repositoryNotFoundError path)) ∧
    (∀ (path : String) (probe : Except JjError String) (e : JjError),
        validate_repository path probe = Except.error e →
        e = JjError.repositoryNotFoundError path) := by
  constructor
  · intro path exc
    rfl
  · intro path probe e h
    cases probe with
    | ok v => exact absurd h (by simp [validate_repository])
    | error exc =>
      simpa [validate_repository] using h.symm

/-- Witness for C7 at a concrete path and a probe failing with an
unclassified exception. -/
theorem validate_repository_spec_witness :
    validate_repository "/tmp/not-a-repo"
        (Except.error (JjError.otherError "status probe blew up")) =
      Except.error (JjError.repositoryNotFoundError "/tmp/not-a-repo") ∧
    (JjError.repositoryNotFoundError "/tmp/not-a-repo" =
      JjError.repositoryNotFoundError "/tmp/not-a-repo") :=
  ⟨validate_repository_spec.1 "/tmp/not-a-repo"
      (JjError.otherError "status probe blew up"),
    validate_repository_spec.2 "/tmp/not-a-repo"
      (Except.error (JjError.otherError "status probe blew up")) _
      (validate_repository_spec.1 "/tmp/not-a-repo"
        (JjError.otherError "status probe blew up"))⟩

/-- C8: every branch entry whose change-id resolution fails carries the
empty string, every entry whose commit-id resolution fails carries the
forty-zero placeholder, and the set of entries (their names, in order) does
not depend on the resolvers at all — a failure never drops the entry or
propagates. -/
theorem branch_list_spec :
    (∀ (output : String) (rc rk : String → Except CommandErrorData String)
        (b : Branch), b ∈ branch_list output rc rk →
        (∀ e, rc b.name = Except.error e → b.target_change_id = "") ∧
        (∀ e, rk b.name = Except.error e → b.target_commit_id = zero_commit_id)) ∧
    (∀ (output : String) (rc rk rc2 rk2 :
        String → Except CommandErrorData String),
        (branch_list output rc rk).map Branch.name =
          (branch_list output rc2 rk2).map Branch.name) := by
  constructor
  · intro output rc rk b hb
    rw [branch_list_eq] at hb
    rcases List.mem_filterMap.mp hb with ⟨raw, _, hline⟩
    unfold branch_list_line at hline
    by_cases hblank : pyStrip raw = ""
    · rw [if_pos hblank] at hline
      exact absurd hline (by simp)
    · rw [if_neg hblank] at hline
      rcases hsp : pySplitSepMax1 ":" (pyStrip raw) with _ | ⟨n, rest⟩
      · rw [hsp] at hline
        exact absurd hline (by simp)
      · rcases rest with _ | ⟨r, rest2⟩
        · rw [hsp] at hline
          exact absurd hline (by simp)
        · rcases rest2 with _ | ⟨x, xs⟩
          · rw [hsp] at hline
            rw [← Option.some_inj.mp hline]
            constructor
            · intro e he
              simp only [he]
            · intro e he
              simp only [he]
          · rw [hsp] at hline
            exact absurd hline (by simp)
  · intro output rc rk rc2 rk2
    rw [branch_list_eq, branch_list_eq, List.map_filterMap, List.map_filterMap]
    apply List.filterMap_congr
    intro raw _
    unfold branch_list_line
    by_cases hblank : pyStrip raw = ""
    · rw [if_pos hblank, if_pos hblank]
    · rw [if_neg hblank, if_neg hblank]
      rcases hsp : pySplitSepMax1 ":" (pyStrip raw) with _ | ⟨n, rest⟩
      · rfl
      · rcases rest with _ | ⟨r, rest2⟩
        · rfl
        · rcases rest2 with _ | ⟨x, xs⟩ <;> rfl

/-- A resolver that always fails, for the C8 witness. -/
def failing_resolver : String → Except CommandErrorData String :=
  fun name => Except.error (CommandErrorData.mk ("jj log -r " ++ name) 1 "" "")

/-- Witness for C8: over the output line `"main: abc hint"` with both
resolutions failing, the entry is still returned, with the empty change id
and the all-zero commit id. -/
theorem branch_list_spec_witness :
    Branch.mk "main" "" zero_commit_id ∈
      branch_list "main: abc hint" failing_resolver failing_resolver ∧
    (Branch.mk "main" "" zero_commit_id).target_change_id = "" ∧
    (Branch.mk "main" "" zero_commit_id).target_commit_id = zero_commit_id := by
  have hm : Branch.mk "main" "" zero_commit_id ∈
      branch_list "main: abc hint" failing_resolver failing_resolver := by
    decide
  have h := branch_list_spec.1 "main: abc hint" failing_resolver
    failing_resolver (Branch.mk "main" "" zero_commit_id) hm
  exact ⟨hm, h.1 (CommandErrorData.mk "jj log -r main" 1 "" "") rfl,
    h.2 (CommandErrorData.mk "jj log -r main" 1 "" "") rfl⟩

/-- C9 fails on the code: `run_lines` keeps the surviving lines verbatim —
they are not trimmed.  On the stdout `"a\n b c "` it returns
`[\x22a\x22, \x22 b c\x22]`, not the trimmed lines the spec promises. -/
theorem run_lines_trimmed_cex :
    run_lines "a\n b c " = ["a", " b c"] ∧
    run_lines_spec "a\n b c " = ["a", "b c"] ∧
    run_lines "a\n b c " ≠ run_lines_spec "a\n b c " := by
  decide

/-- C9 as amended: `run_lines` returns exactly the lines of the stripped
output that are not whitespace-only, in order and verbatim (untrimmed):
the result is a sublist of the split output, every returned line is
non-blank, and every non-blank line is returned. -/
theorem run_lines_amended (stdout : String) :
    List.Sublist (run_lines stdout) (pySplitNl (pyStrip stdout)) ∧
    (∀ line ∈ run_lines stdout, pyStrip line ≠ "") ∧
    (∀ line ∈ pySplitNl (pyStrip stdout), pyStrip line ≠ "" →
      line ∈ run_lines stdout) := by
  refine ⟨List.filter_sublist _, ?_, ?_⟩
  · intro line hline
    have h := (List.mem_filter.mp hline).2
    simpa using h
  · intro line hline hnb
    exact List.mem_filter.mpr ⟨hline, by simpa using hnb⟩

/-- Witness for the amended C9 at the stdout `" x \n\n y "`. -/
theorem run_lines_amended_witness :
    List.Sublist (run_lines " x \n\n y ") (pySplitNl (pyStrip " x \n\n y ")) ∧
    pyStrip "x " ≠ "" ∧
    "x " ∈ run_lines " x \n\n y " :=
  ⟨(run_lines_amended " x \n\n y ").1,
    (run_lines_amended " x \n\n y ").2.1 "x " (by decide),
    (run_lines_amended " x \n\n y ").2.2 "x " (by decide) (by decide)⟩

/-- C10: branch resolution in `status()`: a failing bookmark listing gives
no branch; a successful one gives the first trimmed non-blank output line,
and no branch when there is none (with several bookmarks the first listed
name wins). -/
theorem current_branch_spec :
    (∀ e : CommandErrorData, current_branch_of (Except.error e) = none) ∧
    (∀ out : String, strip_lines out = [] →
        current_branch_of (Except.ok out) = none) ∧
    (∀ (out x : String) (rest : List String),
        strip_lines out = x :: rest →
        current_branch_of (Except.ok out) = some x) := by
  refine ⟨fun e => rfl, ?_, ?_⟩
  · intro out h
    show (strip_lines out).head? = none
    rw [h]
    rfl
  · intro out x rest h
    show (strip_lines out).head? = some x
    rw [h]
    rfl

/-- Witness for C10: two bookmarks listed, the first one wins; a failing
listing yields no branch. -/
theorem current_branch_spec_witness :
    strip_lines "main\nfeature" = ["main", "feature"] ∧
    current_branch_of (Except.ok "main\nfeature") = some "main" ∧
    current_branch_of
      (Except.error (CommandErrorData.mk "jj bookmark list" 1 "" "")) = none :=
  ⟨by decide,
    current_branch_spec.2.2 "main\nfeature" "main" ["feature"] (by decide),
    current_branch_spec.1 (CommandErrorData.mk "jj bookmark list" 1 "" "")⟩

end Pyjutsu
